import Mathlib

/-
Verification of the trigonometric-function visualization repository.

The TypeScript sources are shallowly embedded over the real numbers:
JavaScript numbers are modelled as elements of ℝ, the SVG path strings
built by the components are modelled as lists of path commands, and the
React event handlers are modelled as explicit state-passing functions.
-/

/-- Embedding of the TrigFunction enum from types.ts. -/
inductive TrigFunction
  | SIN
  | COS
  | TAN
deriving DecidableEq

/-- One command of an SVG path string: an absolute moveto or an absolute
lineto, with its two coordinates.  The d-strings assembled by WaveGraph
and PhysicsDemo are modelled as lists of these commands. -/
inductive PathCmd
  | move (x y : ℝ)
  | line (x y : ℝ)

noncomputable section

/-- CIRCLE_RADIUS from constants.ts. -/
def CIRCLE_RADIUS : ℝ := 120

/-- Number of iterations of a JavaScript loop
of the shape: for (let t = 0; t <= L; t += 0.1), in exact real
arithmetic: the samples are k * 0.1 for natural k with k * 0.1 ≤ L. -/
def numSamples (L : ℝ) : ℕ :=
  if 0 ≤ L then Nat.floor (10 * L) + 1 else 0

/-- The list of sample times 0, 0.1, 0.2, ... visited by such a loop. -/
def sampleTimes (L : ℝ) : List ℝ :=
  List.map (fun k : ℕ => (k : ℝ) * 0.1) (List.range (numSamples L))

namespace WaveGraph

/-- width from WaveGraph. -/
def width : ℝ := 400

/-- yScale (amplitude scaling) from WaveGraph. -/
def yScale : ℝ := 120

/-- maxTheta from WaveGraph: the plotted range is [0, 4π]. -/
def maxTheta : ℝ := 4 * Real.pi

/-- pixelsPerRadian from WaveGraph: (width - 40) / maxTheta. -/
def pixelsPerRadian : ℝ := (width - 40) / maxTheta

/-- One iteration of the path-construction loop in pathData: given the
path built so far and the current sample time t, produce the updated
path.  Mirrors the switch on selectedFunc, the tangent gap branch with
its continue, and the reassignment of d at t = 0. -/
def pathStep (selectedFunc : TrigFunction) (d : List PathCmd) (t : ℝ) :
    List PathCmd :=
  let px := t * pixelsPerRadian
  match selectedFunc with
  | .SIN =>
      let py := -Real.sin t * yScale
      if t = 0 then [.move px py] else d ++ [.line px py]
  | .COS =>
      let py := -Real.cos t * yScale
      if t = 0 then [.move px py] else d ++ [.line px py]
  | .TAN =>
      let val := Real.tan t
      if |val| > 3 then
        d ++ [.move px (if val > 0 then -3 * yScale else 3 * yScale)]
      else
        let py := -val * yScale
        if t = 0 then [.move px py] else d ++ [.line px py]

/-- pathData from WaveGraph: the active drawing path.  The loop runs t
over 0, 0.1, ... up to drawLimit = min(angle, maxTheta); d is
initialised to M 0 (-sin 0 * yScale) before the loop. -/
def pathData (angle : ℝ) (selectedFunc : TrigFunction) : List PathCmd :=
  (sampleTimes (min angle maxTheta)).foldl (pathStep selectedFunc)
    [.move 0 (-Real.sin 0 * yScale)]

/-- currentValue from WaveGraph: the selected trig function evaluated at
the current angle. -/
def currentValue (angle : ℝ) : TrigFunction → ℝ
  | .SIN => Real.sin angle
  | .COS => Real.cos angle
  | .TAN => Real.tan angle

/-- currentY from WaveGraph: -currentValue * yScale, clamped to
[-200, 200] when the selected function is TAN. -/
def currentY (angle : ℝ) (selectedFunc : TrigFunction) : ℝ :=
  let cy := -currentValue angle selectedFunc * yScale
  if selectedFunc = .TAN ∧ |cy| > 200 then
    (if cy > 0 then 200 else -200)
  else cy

/-- tipX from WaveGraph. -/
def tipX (angle : ℝ) : ℝ := min angle maxTheta * pixelsPerRadian

end WaveGraph

namespace UnitCircle

/-- toFixed(2) of JavaScript, modelled over ℝ: the decimal string of v
rounded to two fractional digits. -/
def toFixed2 (v : ℝ) : String :=
  let n : ℤ := round (v * 100)
  (if n < 0 then "-" else "") ++ toString (n.natAbs / 100) ++ "." ++
    (if n.natAbs % 100 < 10 then "0" else "") ++ toString (n.natAbs % 100)

/-- formatTrigValue from UnitCircle.tsx: formats a trig value, replacing
well-known constants by symbolic strings within tolerance EPSILON =
0.005, large magnitudes by an infinity marker, and everything else by
the value fixed to two decimals. -/
def formatTrigValue (v : ℝ) : String :=
  if |v| > 100 then "∞ (未定义)"
  else if abs (|v| - 0) < 0.005 then "0"
  else if abs (|v| - 0.5) < 0.005 then
    (if v < -0.005 then "-" else "") ++ "1/2"
  else if abs (|v| - Real.sqrt 2 / 2) < 0.005 then
    (if v < -0.005 then "-" else "") ++ "√2/2"
  else if abs (|v| - Real.sqrt 3 / 2) < 0.005 then
    (if v < -0.005 then "-" else "") ++ "√3/2"
  else if abs (|v| - 1) < 0.005 then
    (if v < -0.005 then "-" else "") ++ "1"
  else if abs (|v| - Real.sqrt 3) < 0.005 then
    (if v < -0.005 then "-" else "") ++ "√3"
  else if abs (|v| - Real.sqrt 3 / 3) < 0.005 then
    (if v < -0.005 then "-" else "") ++ "√3/3"
  else toFixed2 v

/-- x from UnitCircle: the horizontal SVG coordinate of the point on the
circle. -/
def x (angle : ℝ) : ℝ := Real.cos angle * CIRCLE_RADIUS

/-- y from UnitCircle: the vertical SVG coordinate of the point on the
circle (SVG y axis points down, so sin is negated). -/
def y (angle : ℝ) : ℝ := -Real.sin angle * CIRCLE_RADIUS

/-- isTanDefined from UnitCircle. -/
def isTanDefined (angle : ℝ) : Prop := |Real.cos angle| > 0.001

/-- The tangent construction of UnitCircle: the point (tanX, tanY) on
the tangent line x = 1 is computed, and the whole TAN visualization is
rendered, only when isTanDefined holds; otherwise nothing is produced. -/
def tanConstruction (angle : ℝ) : Option (ℝ × ℝ) :=
  if |Real.cos angle| > 0.001 then
    some (CIRCLE_RADIUS, -Real.tan angle * CIRCLE_RADIUS)
  else none

end UnitCircle

namespace App

/-- The App state touched by the degree-input handler. -/
structure State where
  angle : ℝ
  isPlaying : Bool
deriving DecidableEq

/-- handleDegreeInput from App.tsx.  parseFloat of the field text is
abstracted as an Option ℝ: none models a NaN parse result of a
malformed entry, some d a successful parse.  On none the guard
!isNaN(degrees) fails and the state is untouched; on some d the angle
becomes d * π / 180 and playback stops. -/
def handleDegreeInput (parsed : Option ℝ) (s : State) : State :=
  match parsed with
  | none => s
  | some degrees => ⟨degrees * Real.pi / 180, false⟩

/-- Truncation toward zero of a real, as performed by JavaScript when
evaluating the remainder operator. -/
def rtrunc (v : ℝ) : ℤ := if 0 ≤ v then ⌊v⌋ else ⌈v⌉

/-- The JavaScript remainder operator a % b on real operands:
a - b * trunc(a / b). -/
def jsMod (a b : ℝ) : ℝ := a - b * rtrunc (a / b)

/-- The state update performed by one animation frame in App.tsx:
advance the angle by deltaTime * 0.001 * speed and, when the result
exceeds 100π, reduce it modulo 2π. -/
def animateUpdate (speed deltaTime prevAngle : ℝ) : ℝ :=
  let newAngle := prevAngle + deltaTime * 0.001 * speed
  if newAngle > 100 * Real.pi then jsMod newAngle (2 * Real.pi)
  else newAngle

end App

namespace PhysicsDemo

/-- amplitude from PhysicsDemo. -/
def amplitude : ℝ := 80

/-- demoHeight from PhysicsDemo. -/
def demoHeight : ℝ := 300

/-- centerY from PhysicsDemo. -/
def centerY : ℝ := demoHeight / 2

/-- graphXStart from PhysicsDemo. -/
def graphXStart : ℝ := 300

/-- graphWidth from PhysicsDemo. -/
def graphWidth : ℝ := 400

/-- range from PhysicsDemo: the plotted time window of the graphs. -/
def range : ℝ := 2.5 * Real.pi

/-- pixelsPerRad from PhysicsDemo. -/
def pixelsPerRad : ℝ := graphWidth / range

/-- The body of the loop in generateGraphPath, as a recursion over the
remaining sample times: it breaks out as soon as x falls left of
graphXStart, reassigns d at t = 0, and otherwise appends a lineto. -/
def graphStep (angle : ℝ) (func : ℝ → ℝ) (scale : ℝ) (invertY : Bool) :
    List ℝ → List PathCmd → List PathCmd
  | [], d => d
  | t :: ts, d =>
      let x := graphXStart + graphWidth - t * pixelsPerRad
      if x < graphXStart then d
      else
        let y := centerY - func (angle - t) * scale *
          (if invertY then (1 : ℝ) else -1)
        graphStep angle func scale invertY ts
          (if t = 0 then [.move x y] else d ++ [.line x y])

/-- generateGraphPath from PhysicsDemo: the loop runs t over 0, 0.1, ...
up to range, starting from the empty string. -/
def generateGraphPath (angle : ℝ) (func : ℝ → ℝ) (scale : ℝ)
    (invertY : Bool) : List PathCmd :=
  graphStep angle func scale invertY (sampleTimes range) []

/-- handleGraphMouseMove from PhysicsDemo, as a function from the drag
refs, the pointer position and the current angle to the resulting
angle: while a drag is active the angle becomes the drag-start angle
plus the pointer displacement divided by pixelsPerRad; otherwise the
handler returns early and the angle is unchanged. -/
def handleGraphMouseMove (dragging : Bool)
    (dragStartX dragStartAngle clientX angle : ℝ) : ℝ :=
  if dragging then dragStartAngle + (clientX - dragStartX) / pixelsPerRad
  else angle

/-- shmDisplacement from PhysicsDemo: sin(angle) * amplitude. -/
def shmDisplacement (angle : ℝ) : ℝ := Real.sin angle * amplitude

/-- shmY from PhysicsDemo. -/
def shmY (angle : ℝ) : ℝ := centerY - shmDisplacement angle

/-- ucmRadius from PhysicsDemo. -/
def ucmRadius : ℝ := 70

/-- ucmCx from PhysicsDemo. -/
def ucmCx : ℝ := 130

/-- ucmCy from PhysicsDemo. -/
def ucmCy : ℝ := centerY

/-- ucmPx from PhysicsDemo: the particle's horizontal position. -/
def ucmPx (angle : ℝ) : ℝ := ucmCx + ucmRadius * Real.cos angle

/-- ucmPy from PhysicsDemo: the particle's vertical position (SVG y
flip). -/
def ucmPy (angle : ℝ) : ℝ := ucmCy - ucmRadius * Real.sin angle

/-- maxTheta of the pendulum in PhysicsDemo: 25 degrees in radians. -/
def penMaxTheta : ℝ := 25 * (Real.pi / 180)

/-- penTheta from PhysicsDemo: the pendulum deflection angle. -/
def penTheta (angle : ℝ) : ℝ := penMaxTheta * Real.sin angle

/-- penLength from PhysicsDemo. -/
def penLength : ℝ := 160

/-- penOriginX from PhysicsDemo. -/
def penOriginX : ℝ := 130

/-- penOriginY from PhysicsDemo. -/
def penOriginY : ℝ := 50

/-- penBobX from PhysicsDemo. -/
def penBobX (angle : ℝ) : ℝ :=
  penOriginX + penLength * Real.sin (penTheta angle)

/-- penBobY from PhysicsDemo. -/
def penBobY (angle : ℝ) : ℝ :=
  penOriginY + penLength * Real.cos (penTheta angle)

end PhysicsDemo

/-- The geometric data rendered from one set of inputs: the wave graph,
the unit circle and the three physics demos, with the toggle-gated
graph paths included exactly when their toggles are on. -/
structure RenderOutput where
  wavePath : List PathCmd
  waveTipX : ℝ
  waveCurrentY : ℝ
  circleX : ℝ
  circleY : ℝ
  tanPoint : Option (ℝ × ℝ)
  shmMassY : ℝ
  shmDispPath : List PathCmd
  shmVelPath : List PathCmd
  shmAccPath : List PathCmd
  ucmParticle : ℝ × ℝ
  ucmGraphPath : List PathCmd
  penBob : ℝ × ℝ
  penGraphPath : List PathCmd

/-- The full rendered geometry as a function of the current inputs: the
shared angle, the selected trig function, and the three display
toggles of the physics view. -/
def render (angle : ℝ) (selectedFunc : TrigFunction)
    (showDisplacement showVelocity showForce : Bool) : RenderOutput :=
  ⟨WaveGraph.pathData angle selectedFunc,
   WaveGraph.tipX angle,
   WaveGraph.currentY angle selectedFunc,
   UnitCircle.x angle,
   UnitCircle.y angle,
   UnitCircle.tanConstruction angle,
   PhysicsDemo.shmY angle,
   (if showDisplacement then
      PhysicsDemo.generateGraphPath angle Real.sin PhysicsDemo.amplitude true
    else []),
   (if showVelocity then
      PhysicsDemo.generateGraphPath angle Real.cos
        (PhysicsDemo.amplitude * 0.6) true
    else []),
   (if showForce then
      PhysicsDemo.generateGraphPath angle (fun p => -Real.sin p)
        (PhysicsDemo.amplitude * 0.6) true
    else []),
   (PhysicsDemo.ucmPx angle, PhysicsDemo.ucmPy angle),
   (if showDisplacement then
      PhysicsDemo.generateGraphPath angle Real.sin PhysicsDemo.ucmRadius true
    else []),
   (PhysicsDemo.penBobX angle, PhysicsDemo.penBobY angle),
   (if showDisplacement then
      PhysicsDemo.generateGraphPath angle Real.sin PhysicsDemo.amplitude true
    else [])⟩

/-- The polyline described by the specification for the SIN and COS wave
path: the samples 0, 0.1, ... up to min(angle, 4π), the first rendered
as a moveto and every later one as a lineto, each sample t mapped to
(t * pixelsPerRadian, -f(t) * 120). -/
def specWavePath (angle : ℝ) (selectedFunc : TrigFunction) : List PathCmd :=
  match sampleTimes (min angle WaveGraph.maxTheta) with
  | [] => []
  | t0 :: ts =>
      .move (t0 * WaveGraph.pixelsPerRadian)
        (-WaveGraph.currentValue t0 selectedFunc * WaveGraph.yScale) ::
      ts.map (fun t =>
        .line (t * WaveGraph.pixelsPerRadian)
          (-WaveGraph.currentValue t selectedFunc * WaveGraph.yScale))

end

/-- Claim C2: while a drag is active, each pointer move sets the shared
angle to the drag-start angle plus the pointer displacement divided by
pixelsPerRad = 400 / (2.5π); with no active drag the angle is
unchanged. -/
theorem drag_to_time_offset (dragStartX dragStartAngle clientX angle : ℝ) :
    PhysicsDemo.handleGraphMouseMove true dragStartX dragStartAngle
        clientX angle =
      dragStartAngle + (clientX - dragStartX) / PhysicsDemo.pixelsPerRad ∧
    PhysicsDemo.pixelsPerRad = 400 / (2.5 * Real.pi) ∧
    PhysicsDemo.handleGraphMouseMove false dragStartX dragStartAngle
        clientX angle = angle := by
  refine ⟨rfl, ?_, rfl⟩
  simp [PhysicsDemo.pixelsPerRad, PhysicsDemo.graphWidth, PhysicsDemo.range]

/-- Claim C3: both views render the shared angle at amplitude scale 120:
the unit-circle point's vertical coordinate equals the wave marker's
height -sin(angle) * 120 when SIN is selected, and with COS selected
the circle's horizontal coordinate cos(angle) * 120 and the marker
height -cos(angle) * 120 encode the same value cos(angle). -/
theorem synchronized_diagrams (angle : ℝ) :
    UnitCircle.y angle = WaveGraph.currentY angle .SIN ∧
    UnitCircle.y angle = -Real.sin angle * 120 ∧
    UnitCircle.x angle = Real.cos angle * 120 ∧
    WaveGraph.currentY angle .COS = -Real.cos angle * 120 := by
  refine ⟨?_, rfl, rfl, ?_⟩ <;>
    simp [UnitCircle.y, WaveGraph.currentY, WaveGraph.currentValue,
      CIRCLE_RADIUS, WaveGraph.yScale]

/-- Claim C4: a degree entry whose parse yields NaN leaves the state
unchanged; a successfully parsed number d sets the angle to
d * π / 180 and stops playback. -/
theorem degree_input_handling (s : App.State) :
    App.handleDegreeInput none s = s ∧
    ∀ d : ℝ, App.handleDegreeInput (some d) s =
      ⟨d * Real.pi / 180, false⟩ :=
  ⟨rfl, fun _ => rfl⟩

/-- Claim C5: the displayed configuration of each physics demo is a
closed-form trig function of the shared angle: the spring displacement
is 80 sin(angle), the circular-motion particle sits at
(130 + 70 cos(angle), centerY - 70 sin(angle)), and the pendulum
deflection is (25π/180) sin(angle). -/
theorem closed_form_mechanics (angle : ℝ) :
    PhysicsDemo.shmDisplacement angle = 80 * Real.sin angle ∧
    PhysicsDemo.ucmPx angle = 130 + 70 * Real.cos angle ∧
    PhysicsDemo.ucmPy angle = PhysicsDemo.centerY - 70 * Real.sin angle ∧
    PhysicsDemo.penTheta angle = 25 * Real.pi / 180 * Real.sin angle := by
  refine ⟨?_, ?_, ?_, ?_⟩
  · unfold PhysicsDemo.shmDisplacement PhysicsDemo.amplitude
    ring
  · unfold PhysicsDemo.ucmPx PhysicsDemo.ucmCx PhysicsDemo.ucmRadius
    ring
  · unfold PhysicsDemo.ucmPy PhysicsDemo.ucmCy PhysicsDemo.ucmRadius
    ring
  · unfold PhysicsDemo.penTheta PhysicsDemo.penMaxTheta
    ring

/-- Claim C7: the generated paths and rendered coordinates are pure
functions of the current inputs; two evaluations with identical angle,
selected function and display toggles produce identical outputs. -/
theorem stateless_recomputation (a₁ a₂ : ℝ) (f₁ f₂ : TrigFunction)
    (d₁ d₂ v₁ v₂ o₁ o₂ : Bool) (ha : a₁ = a₂) (hf : f₁ = f₂)
    (hd : d₁ = d₂) (hv : v₁ = v₂) (ho : o₁ = o₂) :
    render a₁ f₁ d₁ v₁ o₁ = render a₂ f₂ d₂ v₂ o₂ := by
  subst ha hf hd hv ho
  rfl

/-- Witness for stateless_recomputation at angle 0, SIN, all toggles
on. -/
theorem stateless_recomputation_witness :
    (0 : ℝ) = 0 ∧ TrigFunction.SIN = TrigFunction.SIN ∧
    render 0 .SIN true true true = render 0 .SIN true true true :=
  ⟨rfl, rfl, stateless_recomputation 0 0 .SIN .SIN true true true true
    true true rfl rfl rfl rfl rfl⟩

/-- The JavaScript remainder of positive operands is nonnegative and
less than the divisor. -/
theorem jsMod_bounds {a b : ℝ} (ha : 0 < a) (hb : 0 < b) :
    0 ≤ App.jsMod a b ∧ App.jsMod a b < b := by
  have hq : 0 ≤ a / b := (div_pos ha hb).le
  have hfl : App.rtrunc (a / b) = ⌊a / b⌋ := if_pos hq
  have hf1 : (⌊a / b⌋ : ℝ) ≤ a / b := Int.floor_le _
  have hf2 : a / b < ⌊a / b⌋ + 1 := Int.lt_floor_add_one _
  have hba : b * (a / b) = a := mul_div_cancel₀ a hb.ne'
  unfold App.jsMod
  rw [hfl]
  constructor
  · have := mul_le_mul_of_nonneg_left hf1 hb.le
    rw [hba] at this
    linarith
  · have := mul_lt_mul_of_pos_left hf2 hb
    rw [hba] at this
    linarith

/-- Claim C8: starting from an angle in [0, 100π], with a nonnegative
time delta and a positive speed, the angle produced by the animation
updater stays in [0, 100π]. -/
theorem animation_angle_bound (speed deltaTime prevAngle : ℝ)
    (h0 : 0 ≤ prevAngle) (_h1 : prevAngle ≤ 100 * Real.pi)
    (h2 : 0 ≤ deltaTime) (h3 : 0 < speed) :
    0 ≤ App.animateUpdate speed deltaTime prevAngle ∧
    App.animateUpdate speed deltaTime prevAngle ≤ 100 * Real.pi := by
  have hstep : 0 ≤ deltaTime * 0.001 * speed :=
    mul_nonneg (mul_nonneg h2 (by norm_num)) h3.le
  have hpi := Real.pi_pos
  unfold App.animateUpdate
  by_cases h : prevAngle + deltaTime * 0.001 * speed > 100 * Real.pi
  · rw [if_pos h]
    have hbounds := jsMod_bounds (a := prevAngle + deltaTime * 0.001 * speed)
      (b := 2 * Real.pi) (by linarith) (by linarith)
    exact ⟨hbounds.1, by linarith [hbounds.2]⟩
  · rw [if_neg h]
    exact ⟨by linarith, by linarith [not_lt.mp h]⟩

/-- Witness for animation_angle_bound at speed 1, delta 0, angle 0. -/
theorem animation_angle_bound_witness :
    (0 : ℝ) ≤ 0 ∧ (0 : ℝ) ≤ 100 * Real.pi ∧ (0 : ℝ) < 1 ∧
    0 ≤ App.animateUpdate 1 0 0 ∧
    App.animateUpdate 1 0 0 ≤ 100 * Real.pi :=
  ⟨le_refl 0, by positivity, by norm_num,
   (animation_angle_bound 1 0 0 (le_refl 0) (by positivity) (le_refl 0)
     (by norm_num)).1,
   (animation_angle_bound 1 0 0 (le_refl 0) (by positivity) (le_refl 0)
     (by norm_num)).2⟩

/-- The number of samples a bounded 0.1-step loop visits is the length
of its sample-time list. -/
theorem sampleTimes_length (L : ℝ) :
    (sampleTimes L).length = numSamples L := by
  unfold sampleTimes
  rw [List.length_map, List.length_range]

/-- Claim C6: both path-sampling loops terminate after a bounded number
of iterations: the wave-graph loop visits at most 126 samples of
[0, min(angle, 4π)] and the physics-graph loop visits exactly 79
samples of [0, 2.5π], both at fixed step 0.1. -/
theorem bounded_sampling_loops (angle : ℝ) :
    (sampleTimes (min angle WaveGraph.maxTheta)).length ≤ 126 ∧
    (sampleTimes PhysicsDemo.range).length = 79 := by
  have hpi2 := Real.pi_lt_d2
  have hpi1 := Real.pi_gt_d2
  constructor
  · rw [sampleTimes_length]
    unfold numSamples
    by_cases h : 0 ≤ min angle WaveGraph.maxTheta
    · rw [if_pos h]
      have hle : min angle WaveGraph.maxTheta ≤ WaveGraph.maxTheta :=
        min_le_right _ _
      have hmt : WaveGraph.maxTheta < 12.6 := by
        unfold WaveGraph.maxTheta
        linarith
      have hlt : ⌊10 * min angle WaveGraph.maxTheta⌋₊ < 126 := by
        rw [Nat.floor_lt (by linarith)]
        push_cast
        linarith
      omega
    · rw [if_neg h]
      omega
  · rw [sampleTimes_length]
    unfold numSamples PhysicsDemo.range
    rw [if_pos (by positivity)]
    have : ⌊10 * (2.5 * Real.pi)⌋₊ = 78 := by
      rw [Nat.floor_eq_iff (by positivity)]
      constructor <;> push_cast <;> linarith
    omega

/-- Claim C9: formatTrigValue returns the infinity marker for
magnitudes above 100; otherwise it returns the symbolic string of the
first of 0, 1/2, √2/2, √3/2, 1, √3, √3/3 within 0.005 of the
magnitude, signed exactly when v < -0.005; otherwise the value fixed
to two decimals. -/
theorem formatTrigValue_spec (v : ℝ) :
    (|v| > 100 → UnitCircle.formatTrigValue v = "∞ (未定义)") ∧
    (¬ |v| > 100 → abs (|v| - 0) < 0.005 →
       UnitCircle.formatTrigValue v = "0") ∧
    (¬ |v| > 100 → ¬ abs (|v| - 0) < 0.005 → abs (|v| - 0.5) < 0.005 →
       UnitCircle.formatTrigValue v =
         (if v < -0.005 then "-" else "") ++ "1/2") ∧
    (¬ |v| > 100 → ¬ abs (|v| - 0) < 0.005 → ¬ abs (|v| - 0.5) < 0.005 →
       abs (|v| - Real.sqrt 2 / 2) < 0.005 →
       UnitCircle.formatTrigValue v =
         (if v < -0.005 then "-" else "") ++ "√2/2") ∧
    (¬ |v| > 100 → ¬ abs (|v| - 0) < 0.005 → ¬ abs (|v| - 0.5) < 0.005 →
       ¬ abs (|v| - Real.sqrt 2 / 2) < 0.005 →
       abs (|v| - Real.sqrt 3 / 2) < 0.005 →
       UnitCircle.formatTrigValue v =
         (if v < -0.005 then "-" else "") ++ "√3/2") ∧
    (¬ |v| > 100 → ¬ abs (|v| - 0) < 0.005 → ¬ abs (|v| - 0.5) < 0.005 →
       ¬ abs (|v| - Real.sqrt 2 / 2) < 0.005 →
       ¬ abs (|v| - Real.sqrt 3 / 2) < 0.005 → abs (|v| - 1) < 0.005 →
       UnitCircle.formatTrigValue v =
         (if v < -0.005 then "-" else "") ++ "1") ∧
    (¬ |v| > 100 → ¬ abs (|v| - 0) < 0.005 → ¬ abs (|v| - 0.5) < 0.005 →
       ¬ abs (|v| - Real.sqrt 2 / 2) < 0.005 →
       ¬ abs (|v| - Real.sqrt 3 / 2) < 0.005 → ¬ abs (|v| - 1) < 0.005 →
       abs (|v| - Real.sqrt 3) < 0.005 →
       UnitCircle.formatTrigValue v =
         (if v < -0.005 then "-" else "") ++ "√3") ∧
    (¬ |v| > 100 → ¬ abs (|v| - 0) < 0.005 → ¬ abs (|v| - 0.5) < 0.005 →
       ¬ abs (|v| - Real.sqrt 2 / 2) < 0.005 →
       ¬ abs (|v| - Real.sqrt 3 / 2) < 0.005 → ¬ abs (|v| - 1) < 0.005 →
       ¬ abs (|v| - Real.sqrt 3) < 0.005 →
       abs (|v| - Real.sqrt 3 / 3) < 0.005 →
       UnitCircle.formatTrigValue v =
         (if v < -0.005 then "-" else "") ++ "√3/3") ∧
    (¬ |v| > 100 → ¬ abs (|v| - 0) < 0.005 → ¬ abs (|v| - 0.5) < 0.005 →
       ¬ abs (|v| - Real.sqrt 2 / 2) < 0.005 →
       ¬ abs (|v| - Real.sqrt 3 / 2) < 0.005 → ¬ abs (|v| - 1) < 0.005 →
       ¬ abs (|v| - Real.sqrt 3) < 0.005 →
       ¬ abs (|v| - Real.sqrt 3 / 3) < 0.005 →
       UnitCircle.formatTrigValue v = UnitCircle.toFixed2 v) := by
  refine ⟨fun h1 => ?_, fun h1 h2 => ?_, fun h1 h2 h3 => ?_,
    fun h1 h2 h3 h4 => ?_, fun h1 h2 h3 h4 h5 => ?_,
    fun h1 h2 h3 h4 h5 h6 => ?_, fun h1 h2 h3 h4 h5 h6 h7 => ?_,
    fun h1 h2 h3 h4 h5 h6 h7 h8 => ?_,
    fun h1 h2 h3 h4 h5 h6 h7 h8 => ?_⟩ <;>
    unfold UnitCircle.formatTrigValue
  · rw [if_pos h1]
  · rw [if_neg h1, if_pos h2]
  · rw [if_neg h1, if_neg h2, if_pos h3]
  · rw [if_neg h1, if_neg h2, if_neg h3, if_pos h4]
  · rw [if_neg h1, if_neg h2, if_neg h3, if_neg h4, if_pos h5]
  · rw [if_neg h1, if_neg h2, if_neg h3, if_neg h4, if_neg h5, if_pos h6]
  · rw [if_neg h1, if_neg h2, if_neg h3, if_neg h4, if_neg h5, if_neg h6,
      if_pos h7]
  · rw [if_neg h1, if_neg h2, if_neg h3, if_neg h4, if_neg h5, if_neg h6,
      if_neg h7, if_pos h8]
  · rw [if_neg h1, if_neg h2, if_neg h3, if_neg h4, if_neg h5, if_neg h6,
      if_neg h7, if_neg h8]

/-- Witness for formatTrigValue_spec: the 1/2 branch at v = 0.5 and the
infinity branch at v = 101. -/
theorem formatTrigValue_spec_witness :
    |(101 : ℝ)| > 100 ∧ UnitCircle.formatTrigValue 101 = "∞ (未定义)" ∧
    ¬ |(0.5 : ℝ)| > 100 ∧ ¬ abs (|(0.5 : ℝ)| - 0) < 0.005 ∧
    abs (|(0.5 : ℝ)| - 0.5) < 0.005 ∧
    UnitCircle.formatTrigValue 0.5 =
      (if (0.5 : ℝ) < -0.005 then "-" else "") ++ "1/2" := by
  have e1 : |(101 : ℝ)| = 101 := abs_of_nonneg (by norm_num)
  have e2 : |(0.5 : ℝ)| = 0.5 := abs_of_nonneg (by norm_num)
  have w1 : |(101 : ℝ)| > 100 := by rw [e1]; norm_num
  have w2 : ¬ |(0.5 : ℝ)| > 100 := by rw [e2]; norm_num
  have w3 : ¬ abs (|(0.5 : ℝ)| - 0) < 0.005 := by
    rw [e2]
    rw [abs_of_nonneg (by norm_num : (0 : ℝ) ≤ 0.5 - 0)]
    norm_num
  have w4 : abs (|(0.5 : ℝ)| - 0.5) < 0.005 := by
    rw [e2]
    rw [abs_of_nonneg (by norm_num : (0 : ℝ) ≤ 0.5 - 0.5)]
    norm_num
  exact ⟨w1, (formatTrigValue_spec 101).1 w1, w2, w3, w4,
    (formatTrigValue_spec 0.5).2.2.1 w2 w3 w4⟩

/-- Cons form of the sample-time list of a loop with a nonnegative
bound: the head sample is 0 and the later samples are (k+1) * 0.1. -/
theorem sampleTimes_cons {L : ℝ} (h : 0 ≤ L) :
    sampleTimes L = 0 :: List.map (fun k : ℕ => ((k + 1 : ℕ) : ℝ) * 0.1)
      (List.range (Nat.floor (10 * L))) := by
  unfold sampleTimes numSamples
  rw [if_pos h, List.range_succ_eq_map, List.map_cons, List.map_map]
  simp [Function.comp]

/-- For a non-tangent function, every loop iteration at a nonzero
sample time appends exactly one lineto to the path. -/
theorem foldl_pathStep_line (f : TrigFunction) (hf : f ≠ .TAN)
    (ts : List ℝ) (h : ∀ t ∈ ts, t ≠ 0) (d : List PathCmd) :
    ts.foldl (WaveGraph.pathStep f) d =
      d ++ ts.map (fun t => .line (t * WaveGraph.pixelsPerRadian)
        (-WaveGraph.currentValue t f * WaveGraph.yScale)) := by
  induction ts generalizing d with
  | nil => simp
  | cons t ts ih =>
      have ht : t ≠ 0 := h t (List.mem_cons_self _ _)
      rw [List.foldl_cons, ih (fun u hu => h u (List.mem_cons_of_mem _ hu)),
        List.map_cons]
      cases f with
      | SIN => simp [WaveGraph.pathStep, WaveGraph.currentValue, ht]
      | COS => simp [WaveGraph.pathStep, WaveGraph.currentValue, ht]
      | TAN => exact absurd rfl hf

/-- Claim C1: for every nonnegative angle and selected function SIN or
COS, the active wave path is the polyline over the samples 0, 0.1, ...
not exceeding min(angle, 4π), each sample t mapped to
(t * pixelsPerRadian, -f(t) * 120), the t = 0 sample as a moveto and
all later samples as linetos. -/
theorem wave_path_sampling (angle : ℝ) (h : 0 ≤ angle)
    (f : TrigFunction) (hf : f = .SIN ∨ f = .COS) :
    WaveGraph.pixelsPerRadian = (400 - 40) / (4 * Real.pi) ∧
    WaveGraph.yScale = 120 ∧
    WaveGraph.pathData angle f = specWavePath angle f := by
  refine ⟨rfl, rfl, ?_⟩
  have hmt : (0 : ℝ) ≤ WaveGraph.maxTheta := by
    unfold WaveGraph.maxTheta
    positivity
  have hL : 0 ≤ min angle WaveGraph.maxTheta := le_min h hmt
  have hft : f ≠ .TAN := by
    rcases hf with hf | hf <;> subst hf <;> simp
  rw [WaveGraph.pathData, specWavePath, sampleTimes_cons hL,
    List.foldl_cons]
  have hstep : WaveGraph.pathStep f
      [.move 0 (-Real.sin 0 * WaveGraph.yScale)] 0 =
      [.move (0 * WaveGraph.pixelsPerRadian)
        (-WaveGraph.currentValue 0 f * WaveGraph.yScale)] := by
    rcases hf with hf | hf <;> subst hf <;>
      simp [WaveGraph.pathStep, WaveGraph.currentValue]
  rw [hstep, foldl_pathStep_line f hft _ ?_]
  · simp
  · intro t ht
    obtain ⟨k, hk, rfl⟩ := List.mem_map.mp ht
    positivity

/-- Witness for wave_path_sampling at angle 0 with SIN selected. -/
theorem wave_path_sampling_witness :
    (0 : ℝ) ≤ 0 ∧
    (TrigFunction.SIN = TrigFunction.SIN ∨
      TrigFunction.SIN = TrigFunction.COS) ∧
    WaveGraph.pathData 0 .SIN = specWavePath 0 .SIN :=
  ⟨le_refl 0, Or.inl rfl,
   (wave_path_sampling 0 (le_refl 0) .SIN (Or.inl rfl)).2.2⟩

/-- The TAN arm of the path-construction loop, written out. -/
theorem pathStep_TAN (d : List PathCmd) (t : ℝ) :
    WaveGraph.pathStep .TAN d t =
      if |Real.tan t| > 3 then
        d ++ [.move (t * WaveGraph.pixelsPerRadian)
          (if Real.tan t > 0 then -3 * WaveGraph.yScale
           else 3 * WaveGraph.yScale)]
      else if t = 0 then
        [.move (t * WaveGraph.pixelsPerRadian)
          (-Real.tan t * WaveGraph.yScale)]
      else
        d ++ [.line (t * WaveGraph.pixelsPerRadian)
          (-Real.tan t * WaveGraph.yScale)] := rfl

/-- A tangent-path loop iteration preserves the bound on lineto
heights: every lineto it appends has height of magnitude at most
3 * yScale. -/
theorem pathStep_tan_bound (d : List PathCmd) (t : ℝ)
    (hd : ∀ x y, PathCmd.line x y ∈ d → |y| ≤ 3 * WaveGraph.yScale) :
    ∀ x y, PathCmd.line x y ∈ WaveGraph.pathStep .TAN d t →
      |y| ≤ 3 * WaveGraph.yScale := by
  intro x y hm
  rw [pathStep_TAN] at hm
  by_cases h1 : |Real.tan t| > 3
  · rw [if_pos h1] at hm
    rcases List.mem_append.mp hm with hm | hm
    · exact hd x y hm
    · simp at hm
  · rw [if_neg h1] at hm
    by_cases h2 : t = 0
    · rw [if_pos h2] at hm
      simp at hm
    · rw [if_neg h2] at hm
      rcases List.mem_append.mp hm with hm | hm
      · exact hd x y hm
      · simp only [List.mem_singleton, PathCmd.line.injEq] at hm
        rw [hm.2]
        have hys : (0 : ℝ) ≤ WaveGraph.yScale := by
          unfold WaveGraph.yScale
          norm_num
        rw [abs_mul, abs_neg, abs_of_nonneg hys]
        exact mul_le_mul_of_nonneg_right (not_lt.mp h1) hys

/-- The lineto-height bound is preserved across the whole tangent
path-construction loop. -/
theorem foldl_pathStep_tan_bound (ts : List ℝ) (d : List PathCmd)
    (hd : ∀ x y, PathCmd.line x y ∈ d → |y| ≤ 3 * WaveGraph.yScale) :
    ∀ x y, PathCmd.line x y ∈ ts.foldl (WaveGraph.pathStep .TAN) d →
      |y| ≤ 3 * WaveGraph.yScale := by
  induction ts generalizing d with
  | nil => simpa using hd
  | cons t ts ih =>
      intro x y hm
      rw [List.foldl_cons] at hm
      exact ih _ (pathStep_tan_bound d t hd) x y hm

/-- Claim C10: the unit-circle tangent construction is produced only
when |cos(angle)| > 0.001; every lineto of the TAN wave path has
height of magnitude at most 3 * 120; and the TAN marker height is
clamped to [-200, 200]. -/
theorem tan_asymptote_guards (angle : ℝ) :
    (∀ p : ℝ × ℝ, UnitCircle.tanConstruction angle = some p →
       |Real.cos angle| > 0.001 ∧
       p = (CIRCLE_RADIUS, -Real.tan angle * CIRCLE_RADIUS)) ∧
    (∀ x y, PathCmd.line x y ∈ WaveGraph.pathData angle .TAN →
       |y| ≤ 3 * WaveGraph.yScale) ∧
    -200 ≤ WaveGraph.currentY angle .TAN ∧
    WaveGraph.currentY angle .TAN ≤ 200 := by
  refine ⟨?_, ?_, ?_⟩
  · intro p hp
    unfold UnitCircle.tanConstruction at hp
    by_cases h : |Real.cos angle| > 0.001
    · rw [if_pos h] at hp
      injection hp with hp
      exact ⟨h, hp.symm⟩
    · rw [if_neg h] at hp
      exact absurd hp (by simp)
  · apply foldl_pathStep_tan_bound
    intro x y hm
    simp at hm
  · simp only [WaveGraph.currentY]
    by_cases h :
        |(-WaveGraph.currentValue angle .TAN * WaveGraph.yScale)| > 200
    · rw [if_pos ⟨trivial, h⟩]
      split_ifs <;> norm_num
    · rw [if_neg (fun hc => h hc.2)]
      exact abs_le.mp (not_lt.mp h)

/-- The tangent of 0.1 is small: its magnitude does not exceed 3, so
the sample at t = 0.1 is drawn as a lineto, not a gap. -/
theorem tan_point_one_small : ¬ |Real.tan 0.1| > 3 := by
  have hpi := Real.pi_gt_three
  have htnn : 0 ≤ Real.tan 0.1 :=
    Real.tan_nonneg_of_nonneg_of_le_pi_div_two (by norm_num) (by linarith)
  have htlt : Real.tan 0.1 < 1 := by
    have h := Real.tan_lt_tan_of_nonneg_of_lt_pi_div_two (by norm_num)
      (by linarith : Real.pi / 4 < Real.pi / 2)
      (by linarith : (0.1 : ℝ) < Real.pi / 4)
    rwa [Real.tan_pi_div_four] at h
  rw [abs_of_nonneg htnn]
  linarith

/-- The sample-time list for the bound 0.1 is exactly [0, 0.1]. -/
theorem sampleTimes_point_one : sampleTimes (0.1 : ℝ) = [0, 0.1] := by
  rw [sampleTimes_cons (by norm_num : (0 : ℝ) ≤ 0.1)]
  have hfl : Nat.floor (10 * (0.1 : ℝ)) = 1 := by
    norm_num
  have hr : List.range 1 = [0] := rfl
  rw [hfl, hr, List.map_cons, List.map_nil]
  norm_num

/-- The TAN wave path at angle 0.1 contains the lineto of the t = 0.1
sample. -/
theorem line_mem_pathData_tan :
    PathCmd.line (0.1 * WaveGraph.pixelsPerRadian)
      (-Real.tan 0.1 * WaveGraph.yScale) ∈ WaveGraph.pathData 0.1 .TAN := by
  have hpi := Real.pi_gt_three
  have hmin : min (0.1 : ℝ) WaveGraph.maxTheta = 0.1 := by
    apply min_eq_left
    unfold WaveGraph.maxTheta
    linarith
  have htan0 : ¬ |Real.tan 0| > 3 := by
    rw [Real.tan_zero, abs_zero]
    norm_num
  rw [WaveGraph.pathData, hmin, sampleTimes_point_one, List.foldl_cons,
    List.foldl_cons, List.foldl_nil, pathStep_TAN, pathStep_TAN,
    if_neg htan0, if_pos rfl, if_neg tan_point_one_small,
    if_neg (by norm_num : ¬ (0.1 : ℝ) = 0)]
  simp

/-- Witness for tan_asymptote_guards: the construction at angle 0 and
the t = 0.1 lineto of the TAN path at angle 0.1. -/
theorem tan_asymptote_guards_witness :
    UnitCircle.tanConstruction 0 =
      some (CIRCLE_RADIUS, -Real.tan 0 * CIRCLE_RADIUS) ∧
    |Real.cos 0| > 0.001 ∧
    PathCmd.line (0.1 * WaveGraph.pixelsPerRadian)
      (-Real.tan 0.1 * WaveGraph.yScale) ∈ WaveGraph.pathData 0.1 .TAN ∧
    |(-Real.tan 0.1 * WaveGraph.yScale)| ≤ 3 * WaveGraph.yScale := by
  have hcos : |Real.cos 0| > 0.001 := by
    rw [Real.cos_zero, abs_one]
    norm_num
  have h0 : UnitCircle.tanConstruction 0 =
      some (CIRCLE_RADIUS, -Real.tan 0 * CIRCLE_RADIUS) := by
    unfold UnitCircle.tanConstruction
    rw [if_pos hcos]
  exact ⟨h0, ((tan_asymptote_guards 0).1 _ h0).1, line_mem_pathData_tan,
    (tan_asymptote_guards 0.1).2.1 _ _ line_mem_pathData_tan⟩
